import Mathlib

/-!
Verification of the reconciliation engine of Appv3.py (POS vs. printer-log
audit).  The engine is embedded shallowly: each pandas expression of the
source is translated into an executable Lean definition over lists of
records, with rationals standing for the finite floating-point values that
actually occur, and Option for the NaN sentinel of the nullable-float
columns.
-/

namespace Audit

/-!
Exact rational arithmetic, written through the normalized-fraction smart
constructor mkRat so that every engine value is kernel-computable (the
library operations Rat.add, Rat.mul, ... are irreducible).  The bridge
lemmas right below each definition prove that these are the ordinary
field operations on ℚ, so the embedding computes with genuine rational
arithmetic, which is exact on the finite decimal values in scope.
-/

/-- Product of two rationals, computably. -/
def qMul (a b : ℚ) : ℚ := mkRat (a.num * b.num) (a.den * b.den)

/-- Sum of two rationals, computably. -/
def qAdd (a b : ℚ) : ℚ := mkRat (a.num * b.den + b.num * a.den) (a.den * b.den)

/-- Difference of two rationals, computably. -/
def qSub (a b : ℚ) : ℚ := mkRat (a.num * b.den - b.num * a.den) (a.den * b.den)

/-- Negation of a rational, computably. -/
def qNeg (a : ℚ) : ℚ := mkRat (-a.num) a.den

/-- Absolute value of a rational, computably. -/
def qAbs (a : ℚ) : ℚ := mkRat a.num.natAbs a.den

/-- Sum of a list of rationals, computably. -/
def qSum (l : List ℚ) : ℚ := l.foldr qAdd 0

/-- Character codes: decimal digit test, as in the regex class \d (ASCII 48..57). -/
def isDigitC (c : Char) : Bool := decide (48 ≤ c.toNat) && decide (c.toNat ≤ 57)

/-- Whitespace characters matched by the regex class \s and stripped by
Python str.strip, restricted to the forms occurring in tabular text. -/
def isSpaceC (c : Char) : Bool := c == ' ' || c == '\t' || c == '\n' || c == '\r'

/-- Numeric value of a digit string, most significant digit first
(the group captured by the regex, or the integer part of a literal). -/
def natOfDigits (cs : List Char) : ℕ := cs.foldl (fun a c => 10 * a + (c.toNat - 48)) 0

/-- ASCII upper-casing on character codes, as applied by Python str.upper
and by pandas str.contains with case=False on the ASCII data in scope. -/
def upCode (c : Char) : ℕ :=
  if decide (97 ≤ c.toNat) && decide (c.toNat ≤ 122) then c.toNat - 32 else c.toNat

/-- Code points of a string, the representation on which ordering and
case-insensitive containment are computed. -/
def codesOf (s : String) : List ℕ := s.data.map Char.toNat

/-- pat is an initial segment of the second list. -/
def leadsL : List ℕ → List ℕ → Bool
  | [], _ => true
  | _ :: _, [] => false
  | p :: ps, c :: cs => (p == c) && leadsL ps cs

/-- pat occurs as a contiguous sublist. -/
def hasSubL (pat : List ℕ) : List ℕ → Bool
  | [] => pat.isEmpty
  | c :: cs => leadsL pat (c :: cs) || hasSubL pat cs

/-- Case-insensitive substring containment: models
pandas Series.str.contains(pat, case=False) on string cells, and the Python
idiom pat in s.upper(), for the literal patterns the source uses. -/
def containsUpper (s pat : String) : Bool :=
  hasSubL (pat.data.map upCode) (s.data.map upCode)

/-- Lexicographic order on code-point lists: the comparison Python applies
to strings, used by pandas when sorting and taking max over text cells. -/
def ltCodes : List ℕ → List ℕ → Bool
  | [], [] => false
  | [], _ :: _ => true
  | _ :: _, [] => false
  | a :: xs, b :: ys => decide (a < b) || (a == b && ltCodes xs ys)

/-- Python str.strip: drop whitespace from both ends. -/
def stripSpaces (cs : List Char) : List Char :=
  ((cs.dropWhile isSpaceC).reverse.dropWhile isSpaceC).reverse

/-- Plain decimal literal (integer part, optional dot and fraction part),
the numeric forms pd.to_numeric accepts among the values in scope;
scientific notation and the inf literals do not occur in the data model. -/
def parseUnsigned (cs : List Char) : Option ℚ :=
  let ip := cs.takeWhile isDigitC
  let rest := cs.dropWhile isDigitC
  match rest with
  | [] => if ip.isEmpty then none else some ((natOfDigits ip : ℕ) : ℚ)
  | '.' :: fp =>
      if fp.all isDigitC && !(ip.isEmpty && fp.isEmpty) then
        some (mkRat (natOfDigits ip * 10 ^ fp.length + natOfDigits fp) (10 ^ fp.length))
      else none
  | _ => none

/-- Signed decimal on a character list. -/
def toNumericL (cs : List Char) : Option ℚ :=
  match cs with
  | '-' :: rest => (parseUnsigned rest).map qNeg
  | '+' :: rest => parseUnsigned rest
  | _ => parseUnsigned cs

/-- Models pd.to_numeric(x, errors="coerce") on a scalar cell rendered as
text: none is the NaN result of a failed coercion. -/
def toNumeric (s : String) : Option ℚ := toNumericL (stripSpaces s.data)

/-- line 91: pd.to_numeric(fuji_df["Printed Pages"], errors="coerce").fillna(0),
the per-cell coercion with zero default. -/
def coercePages (s : String) : ℚ := (toNumeric s).getD 0

/-- Digits directly after the marker, optionally (printer-log side) after a
whitespace gap: the capture group of DR(\d+) resp. DR\s*(\d+) at a fixed
position.  Greedy \s* followed by \d+ is dropWhile-space then a nonempty
digit run, since giving back a whitespace character can never produce a digit. -/
def digitsAfter (ws : Bool) (cs : List Char) : Option ℕ :=
  let cs2 := if ws then cs.dropWhile isSpaceC else cs
  let ds := cs2.takeWhile isDigitC
  if ds.isEmpty then none else some (natOfDigits ds)

/-- Attempt to match the pattern at the current position: literal "D" "R"
(case-sensitive: the source passes no IGNORECASE flag) then digits. -/
def drHere (ws : Bool) (c : Char) (rest : List Char) : Option ℕ :=
  if c == 'D' then
    match rest with
    | 'R' :: rest2 => digitsAfter ws rest2
    | _ => none
  else none

/-- re.search semantics: try the pattern at each position left to right,
first full match wins. -/
def drScan (ws : Bool) : List Char → Option ℕ
  | [] => none
  | c :: rest =>
      match drHere ws c rest with
      | some n => some n
      | none => drScan ws rest

/-- Identifier Extractor.  lines 72 and 93:
Series.astype(str).str.extract(r"DR(\d+)").astype(float) with ws = false
(POS invoice side) and r"DR\s*(\d+)" with ws = true (printer job-name side).
none is the NaN row of a failed extraction. -/
def extractDR (ws : Bool) (s : String) : Option ℕ := drScan ws s.data

/-- lines 75-76: keep rows whose item name contains "DIGITAL PRINT"
(case=False) and does not match "PROOF|STICKER" (case=False). -/
def keepItem (item : String) : Bool :=
  containsUpper item "DIGITAL PRINT" &&
    !(containsUpper item "PROOF" || containsUpper item "STICKER")

/-- line 81: the two-sided marker test, "2 SIDES" in str(item).upper(). -/
def twoSided (item : String) : Bool := containsUpper item "2 SIDES"

/-- line 79: str(qty).replace(",", "").strip(). -/
def cleanQty (s : String) : List Char :=
  stripSpaces (s.data.filter (fun c => !(c == ',')))

/-- lines 78-81, calc_pages.  Note the Python expression
pd.to_numeric(qty_str, errors="coerce") or 0 leaves a NaN unchanged
(NaN is truthy), so a failed parse stays the missing value here; pandas
skips it later when summing, which is why the group totals still see it
as a zero contribution. -/
def calc_pages (item qty : String) : Option ℚ :=
  match toNumericL (cleanQty qty) with
  | none => none
  | some q => some (if twoSided item then qMul q 2 else q)

/-- Modelled from the spec (section 3, page-count coercion invariant): the
quantity is substituted by zero at coercion time, before the double-sided
multiplication.  Kept for comparison with calc_pages. -/
def calcPagesZeroSub (item qty : String) : ℚ :=
  if twoSided item then qMul ((toNumericL (cleanQty qty)).getD 0) 2
  else (toNumericL (cleanQty qty)).getD 0

/-- One POS sale line (section 6 input columns): Invoice No., Item Name,
Sales Qty, Customer Name, all as text cells. -/
structure PosRow where
  invoice : String
  itemName : String
  salesQty : String
  customer : String
  deriving DecidableEq

/-- One printer-log entry: Job Name, Printed Pages, Owner,
Recorded Date/Time, all as text cells. -/
structure FujiRow where
  jobName : String
  printedPages : String
  owner : String
  recorded : String
  deriving DecidableEq

/-- Aggregated POS Group: one row of pos_grouped (lines 84-88). -/
structure PosGroup where
  drNum : ℕ
  invoice : String
  customer : String
  expectedPages : ℚ
  deriving DecidableEq

/-- Aggregated identified Printer Group: one row of fuji_grouped (line 109). -/
structure FujiGroup where
  drNum : ℕ
  printedPages : ℚ
  deriving DecidableEq

/-- One row of anonymous_summary (lines 100-105), Owner renamed to
Artist Name (line 104). -/
structure AnonGroup where
  jobName : String
  artistName : String
  printedPages : ℚ
  recorded : String
  deriving DecidableEq

/-- Insert a key into an ascending duplicate-free key list, keeping it
ascending and duplicate-free. -/
def insertKey (n : ℕ) : List ℕ → List ℕ
  | [] => [n]
  | m :: ms =>
      if n < m then n :: m :: ms else if n = m then m :: ms else m :: insertKey n ms

/-- The distinct keys of a list in ascending order: the index produced by
pandas groupby (whose sort flag defaults to true) and by an outer merge on
a key column (which sorts the join keys). -/
def sortedKeys : List ℕ → List ℕ
  | [] => []
  | n :: ns => insertKey n (sortedKeys ns)

/-- Sum of expected pages over the rows of one group: the pandas sum
aggregation skips missing values, so a row whose quantity failed to coerce
(calc_pages returned the missing value) contributes nothing. -/
def expectedSum (grp : List PosRow) : ℚ :=
  qSum (grp.filterMap (fun r => calc_pages r.itemName r.salesQty))

/-- Aggregation of the retained POS rows (lines 84-88): groupby on DR_Num
sorts the group keys ascending and drops the NaN key (the pandas dropna
default), so only rows with a present identifier form groups; agg keeps
the first Invoice No. and Customer Name of each group and sums
Expected_Pages. -/
def posGroupsR (retained : List PosRow) : List PosGroup :=
  (sortedKeys (retained.filterMap (fun r => extractDR false r.invoice))).map (fun k =>
    let grp := retained.filter (fun r => extractDR false r.invoice == some k)
    PosGroup.mk k ((grp.head?.map (fun r => r.invoice)).getD "")
      ((grp.head?.map (fun r => r.customer)).getD "") (expectedSum grp))

/-- pos_grouped (lines 72-88): keep the digital-print rows, then aggregate. -/
def pos_grouped (rows : List PosRow) : List PosGroup :=
  posGroupsR (rows.filter (fun r => keepItem r.itemName))

/-- fuji_grouped (lines 108-109): the rows with a present identifier
(fuji_with_dr), aggregated by identifier, summing the coerced printed
pages.  Restricting to rows whose extraction is some k already expresses
the notnull filter of line 108, since a row with no identifier matches no
key. -/
def fuji_grouped (rows : List FujiRow) : List FujiGroup :=
  (sortedKeys (rows.filterMap (fun r => extractDR true r.jobName))).map (fun k =>
    FujiGroup.mk k (qSum ((rows.filter
      (fun r => extractDR true r.jobName == some k)).map
        (fun r => coercePages r.printedPages))))

/-- Strict ascending order on (job name, owner) pairs: lexicographic on
the two strings, compared as Python compares strings (by code points). -/
def pairLtB (a b : String × String) : Bool :=
  ltCodes (codesOf a.1) (codesOf b.1) || (a.1 == b.1 && ltCodes (codesOf a.2) (codesOf b.2))

/-- Equality of (job name, owner) pairs. -/
def pairEqB (a b : String × String) : Bool := a.1 == b.1 && a.2 == b.2

/-- Insert a pair key into an ascending duplicate-free list of pair keys. -/
def insertPair (k : String × String) :
    List (String × String) → List (String × String)
  | [] => [k]
  | m :: ms =>
      if pairLtB k m then k :: m :: ms else if pairEqB k m then m :: ms else m :: insertPair k ms

/-- Distinct (job name, owner) keys in ascending order: the group index of
the two-column groupby of line 100 (sort flag again defaults to true). -/
def sortedPairs : List (String × String) → List (String × String)
  | [] => []
  | k :: ks => insertPair k (sortedPairs ks)

/-- pandas max aggregation on a text column: lexicographic maximum, the
latest timestamp for the sortable date format in scope. -/
def maxString (l : List String) : String :=
  l.foldl (fun a b => if ltCodes (codesOf a) (codesOf b) then b else a) ""

/-- Insert a group before the first group with strictly fewer summed pages:
ties stay behind the already-placed groups. -/
def insertDesc (g : AnonGroup) : List AnonGroup → List AnonGroup
  | [] => [g]
  | b :: t => if g.printedPages < b.printedPages then b :: insertDesc g t else g :: b :: t

/-- sort_values by Printed Pages, descending (line 105).  The tie order of
the library default sort is not contractually specified; this models the
behavior it exhibits on the group lists in scope, where equal values keep
their pre-sort relative order (in particular a two-element tie is returned
unswapped), the pre-sort order being the ascending (job name, owner) group
order, not the raw input order. -/
def sortDescPages : List AnonGroup → List AnonGroup
  | [] => []
  | g :: gs => insertDesc g (sortDescPages gs)

/-- The anonymous groups before the final sort (lines 97-104): printer
rows whose extraction is null (anonymous_raw), grouped by
(Job Name, Owner), summing the coerced Printed Pages and taking the
maximum Recorded Date/Time per group. -/
def anonGroupsOf (rows : List FujiRow) : List AnonGroup :=
  (sortedPairs ((rows.filter (fun r => !(extractDR true r.jobName).isSome)).map
      (fun r => (r.jobName, r.owner)))).map (fun k =>
    let grp := (rows.filter (fun r => !(extractDR true r.jobName).isSome)).filter
      (fun r => r.jobName == k.1 && r.owner == k.2)
    AnonGroup.mk k.1 k.2 (qSum (grp.map (fun r => coercePages r.printedPages)))
      (maxString (grp.map (fun r => r.recorded))))

/-- anonymous_summary (lines 97-105): group, aggregate, then sort. -/
def anonymous_summary (rows : List FujiRow) : List AnonGroup :=
  sortDescPages (anonGroupsOf rows)

/-- One row of the outer merge (line 112): the join key, the POS columns
when the key occurs in pos_grouped, the printed total when it occurs in
fuji_grouped.  The two Option fields encode the _merge indicator:
left_only, right_only, both. -/
structure MergedRow where
  drNum : ℕ
  posPart : Option PosGroup
  printedPart : Option ℚ
  deriving DecidableEq

/-- merged (line 112): outer join of pos_grouped and fuji_grouped on
DR_Num; an outer merge emits exactly one row per distinct key of either
side (both group tables already have unique keys). -/
def merged (pos : List PosRow) (fuji : List FujiRow) : List MergedRow :=
  (sortedKeys ((pos_grouped pos).map (fun g => g.drNum) ++
      (fuji_grouped fuji).map (fun g => g.drNum))).map (fun k =>
    MergedRow.mk k ((pos_grouped pos).find? (fun g => g.drNum == k))
      (((fuji_grouped fuji).find? (fun g => g.drNum == k)).map (fun g => g.printedPages)))

/-- Diff = Printed Pages - Expected_Pages (line 115), defined on the rows
present on both sides. -/
def diffOf (m : MergedRow) : Option ℚ :=
  match m.posPart, m.printedPart with
  | some p, some pr => some (qSub pr p.expectedPages)
  | _, _ => none

/-- The _merge indicator reads left_only (line 113). -/
def unprintedB (m : MergedRow) : Bool := m.posPart.isSome && !m.printedPart.isSome

/-- The _merge indicator reads both (line 114). -/
def bothB (m : MergedRow) : Bool := m.posPart.isSome && m.printedPart.isSome

/-- The _merge indicator reads right_only: printer-only keys, bound to no
variable in the source and surfaced in no tab. -/
def printerOnlyB (m : MergedRow) : Bool := !m.posPart.isSome && m.printedPart.isSome

/-- Diff equals zero (on a both-row). -/
def diffZeroB (m : MergedRow) : Bool := decide ((diffOf m).getD 0 = 0)

/-- A both-row with Diff equal to zero. -/
def matchedZeroB (m : MergedRow) : Bool := bothB m && diffZeroB m

/-- A both-row with Diff different from zero (line 116). -/
def mismatchB (m : MergedRow) : Bool := bothB m && !diffZeroB m

/-- unprinted (line 113). -/
def unprinted (pos : List PosRow) (fuji : List FujiRow) : List MergedRow :=
  (merged pos fuji).filter unprintedB

/-- matched (line 114): all rows present on both sides, before the Diff
split. -/
def matched (pos : List PosRow) (fuji : List FujiRow) : List MergedRow :=
  (merged pos fuji).filter bothB

/-- mismatches (line 116): the matched rows whose Diff is not zero. -/
def mismatches (pos : List PosRow) (fuji : List FujiRow) : List MergedRow :=
  (matched pos fuji).filter (fun m => !diffZeroB m)

/-- The both-rows with Diff exactly zero: the matched category of the
reconciliation classification. -/
def matchedZero (pos : List PosRow) (fuji : List FujiRow) : List MergedRow :=
  (merged pos fuji).filter matchedZeroB

/-- The printer-only rows of the outer merge. -/
def printerOnly (pos : List PosRow) (fuji : List FujiRow) : List MergedRow :=
  (merged pos fuji).filter printerOnlyB

/-- line 136: mismatches[mismatches["Diff"].abs() > 10], with the
threshold written as the literal constant 10 in the source. -/
def largeFilter (ms : List MergedRow) : List MergedRow :=
  ms.filter (fun m => decide ((10 : ℚ) < qAbs ((diffOf m).getD 0)))

/-- large_mismatches (line 136). -/
def largeMismatches (pos : List PosRow) (fuji : List FujiRow) : List MergedRow :=
  largeFilter (mismatches pos fuji)

/-- Modelled from the spec (section 4.5): the proof-eligibility filter as
the spec describes it, parameterized by the recognized configuration
option large_diff_threshold; no such parameter exists in the source. -/
def largeMismatchesSpec (t : ℚ) (ms : List MergedRow) : List MergedRow :=
  ms.filter (fun m => decide (t < qAbs ((diffOf m).getD 0)))

/-- proof (line 148): the identified printer rows carrying the selected
identifier, projected to Recorded Date/Time, Job Name, Printed Pages (the
line-91 coerced values: line 91 overwrote the column in place), Owner. -/
def proof (fuji : List FujiRow) (dr : ℕ) : List (String × String × ℚ × String) :=
  ((fuji.filter (fun r => (extractDR true r.jobName).isSome)).filter
      (fun r => extractDR true r.jobName == some dr)).map
    (fun r => (r.recorded, r.jobName, coercePages r.printedPages, r.owner))

/-- lines 147-149: the proof table is rendered only under the Python
truthiness test of selected_dr, which is false exactly at the numeric
identifier 0. -/
def proofDisplay (fuji : List FujiRow) (selectedDr : ℕ) :
    Option (List (String × String × ℚ × String)) :=
  if selectedDr = 0 then none else some (proof fuji selectedDr)

/-- The number of distinct identifiers across the two normalized inputs. -/
def distinctIds (pos : List PosRow) (fuji : List FujiRow) : ℕ :=
  ((pos_grouped pos).map (fun g => g.drNum) ++
    (fuji_grouped fuji).map (fun g => g.drNum)).dedup.length

/-- How many of the four reconciliation classes a merged row falls in. -/
def classCount (m : MergedRow) : ℕ :=
  (if unprintedB m then 1 else 0) + (if matchedZeroB m then 1 else 0) +
    (if mismatchB m then 1 else 0) + (if printerOnlyB m then 1 else 0)

/-- The descending order by summed printed pages, as a relation. -/
def pagesGe (a b : AnonGroup) : Prop := b.printedPages ≤ a.printedPages

/-- The POS table of the end-to-end scenario of the spec. -/
def posC5 : List PosRow := [PosRow.mk "DR100" "DIGITAL PRINT 1 SIDE" "5" "Cust"]

/-- The printer log of the end-to-end scenario, with a variable page count. -/
def fujiC5 (pages : String) : List FujiRow :=
  [FujiRow.mk "Job DR100" pages "Alice" "2024-01-01 10:00"]

/-- The POS table of the threshold scenario: one digital print of 5 pages. -/
def posC7 : List PosRow := [PosRow.mk "DR5" "DIGITAL PRINT 1 SIDE" "5" "C"]

/-- The printer log of the threshold scenario: 10 pages for the same job. -/
def fujiC7 : List FujiRow := [FujiRow.mk "DR5" "10" "O" "T"]

theorem qMul_eq (a b : ℚ) : qMul a b = a * b := by
  rw [qMul, Rat.mkRat_eq_div]
  conv_rhs => rw [← Rat.num_div_den a, ← Rat.num_div_den b]
  push_cast
  rw [div_mul_div_comm]

theorem qAdd_eq (a b : ℚ) : qAdd a b = a + b := by
  have ha : (a.den : ℚ) ≠ 0 := by exact_mod_cast a.den_nz
  have hb : (b.den : ℚ) ≠ 0 := by exact_mod_cast b.den_nz
  rw [qAdd, Rat.mkRat_eq_div]
  conv_rhs => rw [← Rat.num_div_den a, ← Rat.num_div_den b]
  push_cast
  field_simp

theorem qSub_eq (a b : ℚ) : qSub a b = a - b := by
  have ha : (a.den : ℚ) ≠ 0 := by exact_mod_cast a.den_nz
  have hb : (b.den : ℚ) ≠ 0 := by exact_mod_cast b.den_nz
  rw [qSub, Rat.mkRat_eq_div]
  conv_rhs => rw [← Rat.num_div_den a, ← Rat.num_div_den b]
  push_cast
  field_simp
  ring

theorem qNeg_eq (a : ℚ) : qNeg a = -a := by
  have ha : (a.den : ℚ) ≠ 0 := by exact_mod_cast a.den_nz
  rw [qNeg, Rat.mkRat_eq_div]
  conv_rhs => rw [← Rat.num_div_den a]
  push_cast
  field_simp

theorem qAbs_eq (a : ℚ) : qAbs a = |a| := by
  rw [qAbs, Rat.mkRat_eq_div]
  conv_rhs => rw [← Rat.num_div_den a]
  rw [abs_div]
  congr 1
  · push_cast [Int.cast_natAbs, Int.cast_abs]
    rfl
  · rw [abs_of_nonneg (by positivity)]

theorem qSum_eq (l : List ℚ) : qSum l = l.sum := by
  induction l with
  | nil => rfl
  | cons x t ih =>
      rw [List.sum_cons, ← ih]
      show qAdd x (qSum t) = x + qSum t
      exact qAdd_eq x (qSum t)

theorem mem_insertKey (n a : ℕ) (l : List ℕ) : a ∈ insertKey n l ↔ a = n ∨ a ∈ l := by
  induction l with
  | nil => simp [insertKey]
  | cons m ms ih =>
      by_cases h1 : n < m
      · simp [insertKey, h1]
      · by_cases h2 : n = m
        · subst h2
          rw [insertKey, if_neg h1, if_pos rfl]
          simp only [List.mem_cons]
          tauto
        · rw [insertKey, if_neg h1, if_neg h2]
          simp only [List.mem_cons, ih]
          tauto

theorem sorted_insertKey (n : ℕ) (l : List ℕ) (h : List.Pairwise (· < ·) l) :
    List.Pairwise (· < ·) (insertKey n l) := by
  induction l with
  | nil => simp [insertKey]
  | cons m ms ih =>
      rcases List.pairwise_cons.mp h with ⟨hm, hms⟩
      by_cases h1 : n < m
      · rw [insertKey, if_pos h1]
        refine List.pairwise_cons.mpr ⟨?_, h⟩
        intro x hx
        rcases List.mem_cons.mp hx with rfl | hx2
        · exact h1
        · exact Nat.lt_trans h1 (hm x hx2)
      · by_cases h2 : n = m
        · rw [insertKey, if_neg h1, if_pos h2]
          exact h
        · rw [insertKey, if_neg h1, if_neg h2]
          refine List.pairwise_cons.mpr ⟨?_, ih hms⟩
          intro x hx
          rcases (mem_insertKey n x ms).mp hx with rfl | hx2
          · omega
          · exact hm x hx2

theorem sorted_sortedKeys (l : List ℕ) : List.Pairwise (· < ·) (sortedKeys l) := by
  induction l with
  | nil => exact List.Pairwise.nil
  | cons n ns ih => exact sorted_insertKey n (sortedKeys ns) ih

theorem mem_sortedKeys (a : ℕ) (l : List ℕ) : a ∈ sortedKeys l ↔ a ∈ l := by
  induction l with
  | nil => simp [sortedKeys]
  | cons n ns ih =>
      rw [sortedKeys, mem_insertKey, ih, List.mem_cons]

theorem insertKey_eq_of_mem (n : ℕ) (l : List ℕ) (hs : List.Pairwise (· < ·) l)
    (h : n ∈ l) : insertKey n l = l := by
  induction l with
  | nil => cases h
  | cons m ms ih =>
      rcases List.pairwise_cons.mp hs with ⟨hm, hms⟩
      rcases List.mem_cons.mp h with rfl | h2
      · rw [insertKey, if_neg (Nat.lt_irrefl n), if_pos rfl]
      · have hmn : m < n := hm n h2
        rw [insertKey, if_neg (by omega), if_neg (by omega), ih hms h2]

theorem length_insertKey_of_not_mem (n : ℕ) (l : List ℕ) (h : n ∉ l) :
    (insertKey n l).length = l.length + 1 := by
  induction l with
  | nil => rfl
  | cons m ms ih =>
      have hnm : n ≠ m := fun e => h (e ▸ List.mem_cons_self m ms)
      have hms : n ∉ ms := fun e => h (List.mem_cons_of_mem m e)
      by_cases h1 : n < m
      · rw [insertKey, if_pos h1]
        rfl
      · rw [insertKey, if_neg h1, if_neg hnm, List.length_cons, List.length_cons, ih hms]

theorem length_sortedKeys (l : List ℕ) : (sortedKeys l).length = l.dedup.length := by
  induction l with
  | nil => rfl
  | cons n ns ih =>
      by_cases h : n ∈ ns
      · rw [sortedKeys, insertKey_eq_of_mem n (sortedKeys ns) (sorted_sortedKeys ns)
          ((mem_sortedKeys n ns).mpr h), ih, List.dedup_cons_of_mem h]
      · rw [sortedKeys, length_insertKey_of_not_mem n (sortedKeys ns)
          (fun e => h ((mem_sortedKeys n ns).mp e)), ih, List.dedup_cons_of_not_mem h,
          List.length_cons]

theorem find_isSome_of_mem {α : Type} (p : α → Bool) (l : List α) (a : α)
    (ha : a ∈ l) (hp : p a = true) : (l.find? p).isSome = true := by
  induction l with
  | nil => cases ha
  | cons b t ih =>
      cases hb : p b
      · rw [List.find?_cons_of_neg _ (by simp [hb])]
        rcases List.mem_cons.mp ha with rfl | h2
        · rw [hp] at hb; cases hb
        · exact ih h2
      · rw [List.find?_cons_of_pos _ hb]
        rfl

theorem filter_filter_custom {α : Type} (p q : α → Bool) (l : List α) :
    (l.filter p).filter q = l.filter (fun a => p a && q a) := by
  induction l with
  | nil => rfl
  | cons a t ih =>
      by_cases hp : p a <;> by_cases hq : q a <;>
        simp [List.filter_cons, hp, hq, ih]

theorem length_filter_four {α : Type} (p1 p2 p3 p4 : α → Bool) (l : List α)
    (h : ∀ x ∈ l, ((if p1 x then 1 else 0) + (if p2 x then 1 else 0) +
      (if p3 x then 1 else 0) + (if p4 x then 1 else 0) : ℕ) = 1) :
    (l.filter p1).length + (l.filter p2).length + (l.filter p3).length +
      (l.filter p4).length = l.length := by
  induction l with
  | nil => simp
  | cons a t ih =>
      have ha := h a (List.mem_cons_self a t)
      have iht := ih (fun x hx => h x (List.mem_cons_of_mem a hx))
      cases h1 : p1 a <;> cases h2 : p2 a <;> cases h3 : p3 a <;> cases h4 : p4 a <;>
        simp [h1, h2, h3, h4, List.filter_cons] at ha ⊢ <;> omega

theorem classCount_eq_one (m : MergedRow)
    (hm : m.posPart.isSome = true ∨ m.printedPart.isSome = true) : classCount m = 1 := by
  rcases hp : m.posPart with _ | p <;> rcases hq : m.printedPart with _ | q
  · rw [hp, hq] at hm
    simp at hm
  · simp [classCount, unprintedB, matchedZeroB, mismatchB, printerOnlyB, bothB, hp, hq]
  · simp [classCount, unprintedB, matchedZeroB, mismatchB, printerOnlyB, bothB, hp, hq]
  · cases h0 : diffZeroB m <;>
      simp [classCount, unprintedB, matchedZeroB, mismatchB, printerOnlyB, bothB, hp, hq, h0]

theorem merged_isSome_or (pos : List PosRow) (fuji : List FujiRow) (m : MergedRow)
    (hm : m ∈ merged pos fuji) :
    m.posPart.isSome = true ∨ m.printedPart.isSome = true := by
  rcases List.mem_map.mp hm with ⟨k, hk, rfl⟩
  rw [mem_sortedKeys] at hk
  rcases List.mem_append.mp hk with h | h
  · left
    rcases List.mem_map.mp h with ⟨g, hg, rfl⟩
    simpa using find_isSome_of_mem (fun g2 => g2.drNum == g.drNum) (pos_grouped pos) g hg
      (by simp)
  · right
    rcases List.mem_map.mp h with ⟨g, hg, rfl⟩
    have hs := find_isSome_of_mem (fun g2 => g2.drNum == g.drNum) (fuji_grouped fuji) g hg
      (by simp)
    rcases Option.isSome_iff_exists.mp hs with ⟨g2, hg2⟩
    simp [hg2]

theorem length_merged (pos : List PosRow) (fuji : List FujiRow) :
    (merged pos fuji).length = distinctIds pos fuji := by
  rw [merged, distinctIds, List.length_map, length_sortedKeys]

theorem mismatches_eq_filter (pos : List PosRow) (fuji : List FujiRow) :
    mismatches pos fuji = (merged pos fuji).filter mismatchB := by
  rw [mismatches, matched, filter_filter_custom]
  rfl

/-- C4: for every pair of inputs, each row of the outer merge falls in
exactly one of the four classes unprinted, matched with zero diff,
mismatched, printer-only, and the sizes of the four filtered sets sum to
the number of distinct identifiers across the two normalized inputs. -/
theorem C4_partition (pos : List PosRow) (fuji : List FujiRow) :
    ((merged pos fuji).all (fun m => decide (classCount m = 1))) = true ∧
    (unprinted pos fuji).length + (matchedZero pos fuji).length +
      (mismatches pos fuji).length + (printerOnly pos fuji).length =
      distinctIds pos fuji := by
  have hone : ∀ m ∈ merged pos fuji, classCount m = 1 :=
    fun m hm => classCount_eq_one m (merged_isSome_or pos fuji m hm)
  constructor
  · rw [List.all_eq_true]
    intro m hm
    exact decide_eq_true (hone m hm)
  · rw [unprinted, matchedZero, mismatches_eq_filter, printerOnly, ← length_merged pos fuji]
    exact length_filter_four unprintedB matchedZeroB mismatchB printerOnlyB
      (merged pos fuji) hone

theorem mem_insertDesc (g a : AnonGroup) (l : List AnonGroup) :
    a ∈ insertDesc g l ↔ a = g ∨ a ∈ l := by
  induction l with
  | nil => simp [insertDesc]
  | cons b t ih =>
      by_cases h1 : g.printedPages < b.printedPages
      · rw [insertDesc, if_pos h1]
        simp only [List.mem_cons, ih]
        tauto
      · rw [insertDesc, if_neg h1]
        simp only [List.mem_cons]

theorem pairwise_insertDesc (g : AnonGroup) (l : List AnonGroup)
    (h : List.Pairwise pagesGe l) : List.Pairwise pagesGe (insertDesc g l) := by
  induction l with
  | nil => simp [insertDesc, List.pairwise_cons]
  | cons b t ih =>
      rcases List.pairwise_cons.mp h with ⟨hb, ht⟩
      by_cases h1 : g.printedPages < b.printedPages
      · rw [insertDesc, if_pos h1]
        refine List.pairwise_cons.mpr ⟨?_, ih ht⟩
        intro x hx
        rcases (mem_insertDesc g x t).mp hx with rfl | hx2
        · exact le_of_lt h1
        · exact hb x hx2
      · rw [insertDesc, if_neg h1]
        refine List.pairwise_cons.mpr ⟨?_, h⟩
        intro x hx
        rcases List.mem_cons.mp hx with rfl | hx2
        · exact le_of_not_lt h1
        · exact le_trans (hb x hx2) (le_of_not_lt h1)

theorem pairwise_sortDescPages (l : List AnonGroup) :
    List.Pairwise pagesGe (sortDescPages l) := by
  induction l with
  | nil => exact List.Pairwise.nil
  | cons g gs ih => exact pairwise_insertDesc g (sortDescPages gs) ih

/-- C6 counterexample: two anonymous printer rows tie at 5 summed pages;
the input order is Zebra then Apple, but the summary lists Apple first,
because grouping ordered the groups by ascending (job name, owner) key
before the page sort and the sort leaves a tied pair unswapped; so ties
are not in natural input order. -/
theorem C6_tie_counterexample :
    anonymous_summary [FujiRow.mk "Zebra" "5" "Bob" "T1",
        FujiRow.mk "Apple" "5" "Al" "T2"] =
      [AnonGroup.mk "Apple" "Al" 5 "T2", AnonGroup.mk "Zebra" "Bob" 5 "T1"] ∧
    anonymous_summary [FujiRow.mk "Zebra" "5" "Bob" "T1",
        FujiRow.mk "Apple" "5" "Al" "T2"] ≠
      [AnonGroup.mk "Zebra" "Bob" 5 "T1", AnonGroup.mk "Apple" "Al" 5 "T2"] := by
  decide

/-- C6 amended: the anonymous result carries one row per (job name, owner)
pair of the no-identifier rows with summed pages and maximum timestamp,
sorted descending by summed pages; tied groups appear in the ascending
(job name, owner) key order that grouping established, not in natural
input order.  The spec scenario: Banner A with pages 5 and 7 yields one
row with 12 and the later timestamp. -/
theorem C6_anonymous_amended :
    (∀ rows : List FujiRow, List.Pairwise pagesGe (anonymous_summary rows)) ∧
    anonymous_summary [FujiRow.mk "Banner A" "5" "Alice" "2024-01-01",
        FujiRow.mk "Banner A" "7" "Alice" "2024-01-02"] =
      [AnonGroup.mk "Banner A" "Alice" 12 "2024-01-02"] ∧
    anonymous_summary [FujiRow.mk "Zebra" "5" "Bob" "T1",
        FujiRow.mk "Apple" "5" "Al" "T2"] =
      [AnonGroup.mk "Apple" "Al" 5 "T2", AnonGroup.mk "Zebra" "Bob" 5 "T1"] := by
  refine ⟨fun rows => ?_, by decide, by decide⟩
  rw [anonymous_summary]
  exact pairwise_sortDescPages (anonGroupsOf rows)

/-- C3 counterexample: a POS row passing the item filter whose invoice
yields no identifier is dropped by the aggregation (groupby drops the null
key), so it forms no group and the unprinted set of a run with that single
row is empty, instead of holding a group keyed by the absent sentinel. -/
theorem C3_absent_counterexample :
    keepItem "DIGITAL PRINT 1 SIDE" = true ∧
    extractDR false "INV-999" = none ∧
    pos_grouped [PosRow.mk "INV-999" "DIGITAL PRINT 1 SIDE" "5" "Cust"] = [] ∧
    unprinted [PosRow.mk "INV-999" "DIGITAL PRINT 1 SIDE" "5" "Cust"] [] = [] := by
  decide

/-- C3 amended: every aggregated POS group arises from a retained row
whose invoice yields a present identifier; filtered rows carrying the
absent sentinel are dropped at the groupby, so they reach no group, never
meet the matcher, and appear in no result set. -/
theorem C3_absent_dropped_amended (rows : List PosRow) :
    ((pos_grouped rows).all (fun g => rows.any
      (fun r => keepItem r.itemName &&
        (extractDR false r.invoice == some g.drNum)))) = true := by
  rw [List.all_eq_true]
  intro g hg
  rw [pos_grouped, posGroupsR] at hg
  rcases List.mem_map.mp hg with ⟨k, hk, rfl⟩
  rw [mem_sortedKeys] at hk
  rcases List.mem_filterMap.mp hk with ⟨r, hr, hex⟩
  rcases List.mem_filter.mp hr with ⟨hrmem, hkeep⟩
  rw [List.any_eq_true]
  exact ⟨r, hrmem, by simp [hkeep, hex]⟩

theorem calcPagesZeroSub_eq_getD (item qty : String) :
    calcPagesZeroSub item qty = (calc_pages item qty).getD 0 := by
  rw [calcPagesZeroSub, calc_pages]
  cases hn : toNumericL (cleanQty qty) with
  | none =>
      simp only [Option.getD_none]
      by_cases ht : twoSided item
      · rw [if_pos ht, qMul_eq]
        ring
      · rw [if_neg ht]
  | some q =>
      by_cases ht : twoSided item <;> simp [ht]

theorem expectedSum_eq_zeroSub (grp : List PosRow) :
    expectedSum grp =
      (grp.map (fun r => calcPagesZeroSub r.itemName r.salesQty)).sum := by
  induction grp with
  | nil => rfl
  | cons r t ih =>
      rw [List.map_cons, List.sum_cons, ← ih, expectedSum, expectedSum,
        List.filterMap_cons, calcPagesZeroSub_eq_getD]
      cases hc : calc_pages r.itemName r.salesQty with
      | none => rw [Option.getD_none, zero_add]
      | some v =>
          rw [Option.getD_some]
          show qAdd v (qSum _) = v + qSum _
          rw [qAdd_eq]

/-- C2: the engine never propagates a coercion failure: a POS group total
computed per the source (the missing value survives the multiply and is
skipped by the sum) equals the total computed with zero substituted at
coercion time, before the multiply, as the spec words it; and a printer
page cell that fails to coerce contributes exactly zero. -/
theorem C2_zero_coercion (grp : List PosRow) (s : String) :
    expectedSum grp =
      (grp.map (fun r => calcPagesZeroSub r.itemName r.salesQty)).sum ∧
    (toNumeric s = none → coercePages s = 0) :=
  ⟨expectedSum_eq_zeroSub grp, fun h => by rw [coercePages, h]; rfl⟩

/-- C2 witness: the non-numeric quantity and page value abc coerces to a
zero contribution. -/
theorem C2_zero_coercion_witness :
    toNumeric "abc" = none ∧ coercePages "abc" = 0 ∧
    expectedSum [PosRow.mk "DR1" "DIGITAL PRINT 1 SIDE" "abc" "c"] =
      ([PosRow.mk "DR1" "DIGITAL PRINT 1 SIDE" "abc" "c"].map
        (fun r => calcPagesZeroSub r.itemName r.salesQty)).sum :=
  ⟨by decide, (C2_zero_coercion [] "abc").2 (by decide),
    (C2_zero_coercion [PosRow.mk "DR1" "DIGITAL PRINT 1 SIDE" "abc" "c"] "abc").1⟩

/-- C1 counterexample: the marker match is case-sensitive on both sides
(the source regexes carry no IGNORECASE flag), so the lowercase forms
extract nothing, where the claim requires 15322. -/
theorem C1_case_counterexample :
    extractDR false "dr15322" = none ∧ extractDR true "dr 15322" = none := by
  decide

/-- C1 amended: the Identifier Extractor returns the digits after the
literal uppercase marker DR, matched case-sensitively, tolerating optional
whitespace between marker and digits on the printer-log side only, and
returns the absent sentinel when no match exists: DR15322 gives 15322 on
both sides, DR 15322 gives 15322 on the printer-log side and absent on the
POS side, INV-999 and the lowercase dr15322 give absent. -/
theorem C1_extractor_amended :
    extractDR false "DR15322" = some 15322 ∧
    extractDR true "DR15322" = some 15322 ∧
    extractDR true "DR 15322" = some 15322 ∧
    extractDR false "DR 15322" = none ∧
    extractDR false "INV-999" = none ∧
    extractDR true "INV-999" = none ∧
    extractDR false "dr15322" = none := by
  decide

/-- C5 end-to-end: with printed pages 5 identifier 100 is matched with
diff 0 and there is no mismatch; with 8 it is mismatched with diff 3 and
not proof-eligible; with 20 it is mismatched with diff 15, proof-eligible,
and the proof lookup for 100 returns exactly the printer row. -/
theorem C5_end_to_end :
    (matchedZero posC5 (fujiC5 "5") =
        [MergedRow.mk 100 (some (PosGroup.mk 100 "DR100" "Cust" 5)) (some 5)] ∧
      mismatches posC5 (fujiC5 "5") = []) ∧
    ((mismatches posC5 (fujiC5 "8")).map (fun m => (diffOf m).getD 0) = [3] ∧
      largeMismatches posC5 (fujiC5 "8") = []) ∧
    ((mismatches posC5 (fujiC5 "20")).map (fun m => (diffOf m).getD 0) = [15] ∧
      (largeMismatches posC5 (fujiC5 "20")).map (fun m => m.drNum) = [100] ∧
      proofDisplay (fujiC5 "20") 100 =
        some [("2024-01-01 10:00", "Job DR100", (20 : ℚ), "Alice")]) := by
  decide

/-- C7 counterexample: identifier 5 is mismatched with diff 5; under the
claimed configurable threshold set to 4 that row must be offered for
proof, but the engine offers nothing: the threshold is the fixed literal
10 of line 136, and no configuration option exists. -/
theorem C7_threshold_counterexample :
    (mismatches posC7 fujiC7).map (fun m => (diffOf m).getD 0) = [5] ∧
    largeMismatches posC7 fujiC7 = [] ∧
    largeMismatchesSpec 4 (mismatches posC7 fujiC7) = mismatches posC7 fujiC7 := by
  decide

/-- C7 amended: the proof-eligibility threshold is the hardcoded constant
10: the engine filter coincides with the spec filter instantiated at 10,
offering exactly the mismatched rows whose absolute diff exceeds 10. -/
theorem C7_threshold_amended (ms : List MergedRow) (m : MergedRow) :
    largeFilter ms = largeMismatchesSpec 10 ms ∧
    (m ∈ largeFilter ms ↔ m ∈ ms ∧ 10 < |(diffOf m).getD 0|) := by
  constructor
  · rfl
  · rw [largeFilter, List.mem_filter]
    simp [qAbs_eq]

/-- C8: a row whose item name fails the digital-print filter, in
particular any row whose item name carries PROOF or STICKER
case-insensitively, can be removed from the input without changing any
aggregated POS group, because the filter runs before aggregation; and
every item name containing PROOF or STICKER fails the filter. -/
theorem C8_filter_before_aggregation (l1 l2 : List PosRow) (r : PosRow)
    (h : keepItem r.itemName = false) :
    pos_grouped (l1 ++ r :: l2) = pos_grouped (l1 ++ l2) ∧
    ∀ item : String,
      (containsUpper item "PROOF" || containsUpper item "STICKER") = true →
        keepItem item = false := by
  constructor
  · rw [pos_grouped, pos_grouped, List.filter_append, List.filter_append,
      List.filter_cons_of_neg (by simp [h])]
  · intro item hit
    rw [keepItem, hit]
    simp

/-- C8 witness at a concrete sticker row. -/
theorem C8_filter_before_aggregation_witness :
    keepItem "STICKER A4" = false ∧
    (pos_grouped ([] ++ PosRow.mk "DR1" "STICKER A4" "5" "c" :: []) =
        pos_grouped ([] ++ []) ∧
      ∀ item : String,
        (containsUpper item "PROOF" || containsUpper item "STICKER") = true →
          keepItem item = false) :=
  ⟨by decide,
    C8_filter_before_aggregation [] [] (PosRow.mk "DR1" "STICKER A4" "5" "c") (by decide)⟩

/-- C9: for every retained row whose quantity string coerces to q after
comma removal and stripping, the expected pages are q times 2 exactly when
the item name carries the case-insensitive two-sided marker, q otherwise;
the spec quantities: one-sided "1,200" contributes 1200, two-sided "10"
contributes 20. -/
theorem C9_double_sided (item qty : String) (q : ℚ)
    (h : toNumericL (cleanQty qty) = some q) :
    calc_pages item qty = some (if twoSided item then q * 2 else q) ∧
    calc_pages "DIGITAL PRINT 1 SIDE" "1,200" = some 1200 ∧
    calc_pages "DIGITAL PRINT 2 SIDES" "10" = some 20 := by
  refine ⟨?_, by decide, by decide⟩
  rw [calc_pages, h]
  show some (if twoSided item then qMul q 2 else q) =
    some (if twoSided item then q * 2 else q)
  rw [qMul_eq]

/-- C9 witness at the quantity 5. -/
theorem C9_double_sided_witness :
    toNumericL (cleanQty "5") = some 5 ∧
    (calc_pages "DIGITAL PRINT 1 SIDE" "5" =
        some (if twoSided "DIGITAL PRINT 1 SIDE" then (5 : ℚ) * 2 else 5) ∧
      calc_pages "DIGITAL PRINT 1 SIDE" "1,200" = some 1200 ∧
      calc_pages "DIGITAL PRINT 2 SIDES" "10" = some 20) :=
  ⟨by decide, C9_double_sided "DIGITAL PRINT 1 SIDE" "5" 5 (by decide)⟩

/-- C10: the proof drill-down is guarded by the Python truthiness of the
selected identifier: identifier 0, which a job named DR0 extracts,
displays no proof rows; every nonzero identifier displays exactly the
proof rows of that identifier. -/
theorem C10_truthiness_guard (fuji : List FujiRow) (d : ℕ) (hd : d ≠ 0) :
    proofDisplay fuji 0 = none ∧
    proofDisplay fuji d = some (proof fuji d) ∧
    extractDR true "DR0" = some 0 := by
  refine ⟨rfl, ?_, by decide⟩
  rw [proofDisplay, if_neg hd]

/-- C10 witness at the identifier 100. -/
theorem C10_truthiness_guard_witness :
    (100 : ℕ) ≠ 0 ∧
    (proofDisplay ([] : List FujiRow) 0 = none ∧
      proofDisplay ([] : List FujiRow) 100 = some (proof [] 100) ∧
      extractDR true "DR0" = some 0) :=
  ⟨by decide, C10_truthiness_guard [] 100 (by decide)⟩

end Audit
